import Mathlib

/-!
# Verification of the kalilfin analytics pipeline

Shallow embedding of `src/app.py`'s per-ticker analytics pipeline:
`get_stock_data` (fetch → SMA/RSI → forecast → signal → snapshot), the
`lru_cache(maxsize=128)` layer wrapping it, and the `home` POST handler
that updates the portfolio store.

Numbers are modelled as rationals (`ℚ`); pandas/NumPy NaN propagation for
undefined indicators is modelled with `Option ℚ` (`none` = NaN), and each
IEEE comparison against NaN is translated as the constant it evaluates to.
External collaborators (yfinance, Prophet) are inputs to the embedded
pipeline: their observable results, including whether they raise, are
packaged in a `FetchEnv` record.
-/

/-- Recommendation strings produced at `app.py` line 69: "Buy" / "Sell" / "Hold". -/
inductive Rec where
  | buy
  | sell
  | hold
deriving DecidableEq, Repr

/-- One entry of the `eco_scores` table (`app.py` lines 24–28). -/
structure EcoScore where
  score : ℤ
  carbon : ℤ
deriving DecidableEq, Repr

/-- The fields of `stock.info` that `get_stock_data` reads: any of them may be
absent from the upstream dict (`'regularMarketPrice' not in info`, `info.get`). -/
structure StockInfo where
  regularMarketPrice : Option ℚ
  longName : Option String
  volume : Option ℤ
deriving DecidableEq, Repr

/-- The dict returned by `get_stock_data` on success (`app.py` lines 64–75).
`sma_20` and `rsi` hold `none` where the Python floats are NaN. -/
structure StockData where
  name : String
  price : ℚ
  sma_20 : Option ℚ
  rsi : Option ℚ
  decision : Rec
  volume : ℤ
  change : ℚ
  chart_data : List ℚ
  prediction : ℚ
  eco_score : EcoScore
deriving DecidableEq, Repr

/-- Results of the external calls made during one `get_stock_data` invocation:
`stock.info` (may raise), `stock.history(period="30d")['Close']` as a
chronological list of closes (may raise), and the Prophet forecast's final
`yhat` (model fitting may raise). An `Except.error` value is the message of
the exception the call raised. -/
structure FetchEnv where
  infoResult : Except String StockInfo
  historyResult : Except String (List ℚ)
  forecastResult : Except String ℚ

/-- Python's `round(x, 2)`: rounding to 2 decimal places. -/
def round2 (x : ℚ) : ℚ := (round (x * 100) : ℚ) / 100

/-- The last `n` elements of a list (pandas `.tail(n)`, and the trailing
window of a rolling computation evaluated at the last row). -/
def lastN (n : ℕ) (l : List ℚ) : List ℚ := l.drop (l.length - n)

/-- pandas `Series.rolling(window=w).mean()` (with the default
`min_periods = w`): entry `i` is the mean of the `w` values ending at `i`,
or NaN (`none`) when fewer than `w` observations are available. -/
def rollingMean (w : ℕ) (l : List ℚ) : List (Option ℚ) :=
  (List.range l.length).map fun i =>
    if i + 1 < w then none else some (((l.take (i + 1)).drop (i + 1 - w)).sum / w)

/-- `history['Close'].rolling(window=20).mean().iloc[-1]` (`app.py` line 51):
the last entry of the 20-period rolling mean; `none` models its NaN. -/
def smaLast (closes : List ℚ) : Option ℚ :=
  ((rollingMean 20 closes).getLast?).join

/-- `Series.diff(1)` without its leading NaN: consecutive differences. -/
def diffs : List ℚ → List ℚ
  | [] => []
  | [_] => []
  | a :: b :: rest => (b - a) :: diffs (b :: rest)

/-- `diff.where(diff > 0, 0.0)`: the gain part of each delta. -/
def gains (ds : List ℚ) : List ℚ := ds.map fun d => if 0 < d then d else 0

/-- `-diff.where(diff < 0, -0.0)`: the loss magnitude of each delta. -/
def losses (ds : List ℚ) : List ℚ := ds.map fun d => if d < 0 then -d else 0

/-- One step of `ewm(alpha, adjust=False).mean()`: `y ← (1-α)·y + α·x`. -/
def wilderStep (alpha prev x : ℚ) : ℚ := (1 - alpha) * prev + alpha * x

/-- Final value of `ewm(alpha=α, adjust=False, min_periods=|l|).mean()` over a
series whose valid observations are `l`; `none` when the series is empty. -/
def wilderEWM (alpha : ℚ) : List ℚ → Option ℚ
  | [] => none
  | x :: xs => some (xs.foldl (wilderStep alpha) x)

/-- `ta.momentum.RSIIndicator(close, window=14).rsi().iloc[-1]` (`app.py`
line 52). The library computes `diff(1)` (leading NaN at index 0), then
`up_direction = diff.where(diff > 0, 0.0)` and
`down_direction = -diff.where(diff < 0, -0.0)`: pandas `where` replaces the
entries whose condition is False, and `NaN > 0` / `NaN < 0` are both False,
so the leading diff-NaN becomes 0.0 in *both* series. Each series —
`closes.length` valid entries, a 0.0 followed by the gain/loss parts of the
deltas — is then smoothed with
`ewm(alpha=1/14, min_periods=14, adjust=False).mean()`, whose `adjust=False`
recursion is seeded at that converted 0.0 (the `0 ::` below) and whose last
entry is NaN exactly when fewer than 14 observations exist, i.e. when the
history has fewer than 14 closes. The result is
`np.where(emadn == 0, 100, 100 - 100/(1+rs))` with `rs = emaup/emadn`. -/
def rsi14 (closes : List ℚ) : Option ℚ :=
  if closes.length < 14 then none
  else
    match wilderEWM (1 / 14) (0 :: gains (diffs closes)),
        wilderEWM (1 / 14) (0 :: losses (diffs closes)) with
    | some u, some d =>
        if d = 0 then some 100 else some (100 - 100 / (1 + u / d))
    | _, _ => none

/-- `app.py` line 69:
`"Buy" if current_price < sma_20 else "Sell" if current_price > sma_20 else "Hold"`.
When `sma_20` is NaN (`none`) both IEEE comparisons are false, so the
expression falls through to `"Hold"`. -/
def decision (price : ℚ) (sma : Option ℚ) : Rec :=
  match sma with
  | none => Rec.hold
  | some m => if price < m then Rec.buy else if m < price then Rec.sell else Rec.hold

/-- The static `eco_scores` table (`app.py` lines 24–28). -/
def eco_scores : List (String × EcoScore) :=
  [("AAPL", ⟨75, 4500⟩), ("MSFT", ⟨80, 3800⟩), ("TSLA", ⟨95, 2000⟩)]

/-- `closes[-2]`, the second-to-last close (only read when `len > 1`). -/
def penultimate (l : List ℚ) : ℚ := l.getD (l.length - 2) 0

/-- The `current_price` variable of `get_stock_data` (`app.py` lines 38–46):
`info['regularMarketPrice']` when present, otherwise the last close. (When
the key is present, `info.get('regularMarketPrice', history['Close'][-1])`
returns the stored value.) -/
def currentPrice (info : StockInfo) (closes : List ℚ) : ℚ :=
  match info.regularMarketPrice with
  | some p => p
  | none => closes.getLastD 0

/-- The snapshot dict built at `app.py` lines 64–75 from the fetched info,
the (non-empty) close history, and the Prophet forecast `yhat`. The
`decision` compares the raw (unrounded) `current_price` and `sma_20`
variables, exactly as line 69 does. -/
def mkSnapshot (ticker : String) (info : StockInfo) (closes : List ℚ) (yhat : ℚ) : StockData :=
  { name := info.longName.getD ticker
    price := round2 (currentPrice info closes)
    sma_20 := (smaLast closes).map round2
    rsi := (rsi14 closes).map round2
    decision := decision (currentPrice info closes) (smaLast closes)
    volume := info.volume.getD 0
    change :=
      if 1 < closes.length then
        round2 ((currentPrice info closes - penultimate closes) / penultimate closes * 100)
      else 0
    chart_data := lastN 30 closes
    prediction := round2 yhat
    eco_score := (eco_scores.lookup ticker).getD ⟨50, 5000⟩ }

/-- The body of `get_stock_data` (`app.py` lines 31–78) without the cache
decorator. The surrounding `try/except Exception` makes every raising path
`return None`, so the embedding returns `Option StockData`:
* `stock.info` raising → `none`;
* `stock.history` raising → `none`;
* empty history → `none` (the explicit `raise ValueError` at lines 42/49,
  or the `history['Close'][-1]` lookup on the empty series at lines 43/46);
* Prophet raising during `fit`/`predict` → `none`;
* otherwise the snapshot dict of lines 64–75. -/
def get_stock_data (env : FetchEnv) (ticker : String) : Option StockData :=
  match env.infoResult with
  | Except.error _ => none
  | Except.ok info =>
    match env.historyResult with
    | Except.error _ => none
    | Except.ok closes =>
      if closes.isEmpty then none
      else
        match env.forecastResult with
        | Except.error _ => none
        | Except.ok yhat => some (mkSnapshot ticker info closes yhat)

/-- State of the `functools.lru_cache(maxsize=128)` wrapper on
`get_stock_data` (`app.py` line 30): entries keyed by the ticker argument,
most recently used first. The cached value is whatever the call returned,
including `None`. -/
abbrev Cache := List (String × Option StockData)

/-- One call through the `lru_cache(maxsize=128)` wrapper. Returns the
result, the new cache state, and whether the wrapped function body ran
(i.e. whether the 1-second rate-limit sleep and the upstream yfinance
fetch happened). On a hit the entry moves to the front and the body is
skipped; on a miss the body runs with the current external world
`world : String → Option StockData` and the result is cached, evicting the
least recently used entry beyond capacity 128. -/
def cachedFetch (world : String → Option StockData) (c : Cache) (t : String) :
    Option StockData × Cache × Bool :=
  match c.lookup t with
  | some v => (v, (t, v) :: c.eraseP (fun p => p.1 == t), false)
  | none =>
    let v := world t
    (v, ((t, v) :: c).take 128, true)

/-- Python `str.upper()`: uppercase every character. -/
def pyUpper (s : String) : String := String.mk (s.data.map Char.toUpper)

/-- Python `str.strip()`: drop leading and trailing whitespace. -/
def pyStrip (s : String) : String :=
  String.mk (((s.data.dropWhile Char.isWhitespace).reverse.dropWhile Char.isWhitespace).reverse)

/-- `request.form["ticker"].upper().strip()` (`app.py` line 104). -/
def normalizeTicker (s : String) : String := pyStrip (pyUpper s)

/-- The POST branch of `home` (`app.py` lines 103–109): normalize the raw
ticker, fetch, and on success store the snapshot in the portfolio; on
failure leave the portfolio alone and set the error message. The portfolio
dict is modelled as a map `String → Option StockData`; `fetch` stands for
the (cached) `get_stock_data`. Returns the new portfolio and `error`. -/
def homePost (fetch : String → Option StockData)
    (portfolio : String → Option StockData) (raw : String) :
    (String → Option StockData) × Option String :=
  let t := normalizeTicker raw
  match fetch t with
  | some d => (fun k => if k = t then some d else portfolio k, none)
  | none => (portfolio, some ("Invalid ticker: " ++ t))

/-- Spec §4.1 / §8: the arithmetic mean of the last 20 closes. Stated from
the spec's words, to be compared with the source-derived `smaLast`. -/
def meanLast20 (l : List ℚ) : ℚ := (lastN 20 l).sum / 20

/-! ## Helper lemmas -/

theorem round_le_round {x y : ℚ} (h : x ≤ y) : round x ≤ round y := by
  rw [round_eq, round_eq]
  exact Int.floor_le_floor (by linarith)

theorem round2_idem (x : ℚ) : round2 (round2 x) = round2 x := by
  unfold round2
  have h : (round (x * 100) : ℚ) / 100 * 100 = (round (x * 100) : ℚ) := by
    field_simp
  rw [h, round_intCast]

theorem round2_nonneg {x : ℚ} (h : 0 ≤ x) : 0 ≤ round2 x := by
  unfold round2
  have h1 : round (0 : ℚ) ≤ round (x * 100) := round_le_round (by nlinarith)
  rw [round_zero] at h1
  have h2 : (0 : ℚ) ≤ (round (x * 100) : ℚ) := by exact_mod_cast h1
  exact div_nonneg h2 (by norm_num)

theorem round2_le_100 {x : ℚ} (h : x ≤ 100) : round2 x ≤ 100 := by
  unfold round2
  have h1 : round (x * 100) ≤ round (((10000 : ℤ) : ℚ)) := round_le_round (by push_cast; nlinarith)
  rw [round_intCast] at h1
  have h2 : (round (x * 100) : ℚ) ≤ 10000 := by exact_mod_cast h1
  rw [div_le_iff₀ (by norm_num : (0 : ℚ) < 100)]
  linarith

theorem getLast?_range_map {α : Type _} (f : ℕ → α) {n : ℕ} (h : n ≠ 0) :
    ((List.range n).map f).getLast? = some (f (n - 1)) := by
  obtain ⟨m, rfl⟩ := Nat.exists_eq_succ_of_ne_zero h
  rw [List.range_succ, List.map_append]
  simp

theorem smaLast_of_le {l : List ℚ} (h : 20 ≤ l.length) :
    smaLast l = some ((lastN 20 l).sum / 20) := by
  unfold smaLast rollingMean
  rw [getLast?_range_map _ (by omega)]
  have h1 : ¬(l.length - 1 + 1 < 20) := by omega
  have h2 : l.length - 1 + 1 = l.length := by omega
  simp [h1, h2, lastN, List.take_length]
  omega

theorem smaLast_of_lt {l : List ℚ} (h : l.length < 20) : smaLast l = none := by
  unfold smaLast rollingMean
  rcases Nat.eq_zero_or_pos l.length with h0 | h0
  · rw [h0]; rfl
  · rw [getLast?_range_map _ (by omega)]
    have h1 : l.length - 1 + 1 < 20 := by omega
    simp [h1]

theorem foldl_wilderStep_nonneg (l : List ℚ) : ∀ a : ℚ, 0 ≤ a → (∀ y ∈ l, 0 ≤ y) →
    0 ≤ l.foldl (wilderStep (1 / 14)) a := by
  induction l with
  | nil => intro a ha _; simpa using ha
  | cons x xs ih =>
    intro a ha hmem
    simp only [List.foldl_cons]
    refine ih _ ?_ ?_
    · have hx : 0 ≤ x := hmem x (by simp)
      unfold wilderStep
      nlinarith
    · intro y hy
      exact hmem y (by simp [hy])

theorem wilderEWM_nonneg {l : List ℚ} {v : ℚ} (h : wilderEWM (1 / 14) l = some v)
    (hmem : ∀ y ∈ l, 0 ≤ y) : 0 ≤ v := by
  cases l with
  | nil => simp [wilderEWM] at h
  | cons x xs =>
    simp only [wilderEWM] at h
    injection h with h
    subst h
    exact foldl_wilderStep_nonneg xs x (hmem x (by simp)) fun y hy => hmem y (by simp [hy])

theorem gains_nonneg (ds : List ℚ) : ∀ y ∈ gains ds, 0 ≤ y := by
  intro y hy
  simp only [gains, List.mem_map] at hy
  obtain ⟨d, _, rfl⟩ := hy
  split_ifs <;> linarith

theorem losses_nonneg (ds : List ℚ) : ∀ y ∈ losses ds, 0 ≤ y := by
  intro y hy
  simp only [losses, List.mem_map] at hy
  obtain ⟨d, _, rfl⟩ := hy
  split_ifs <;> linarith

theorem rsi14_of_short {l : List ℚ} (h : l.length < 14) : rsi14 l = none := by
  unfold rsi14
  rw [if_pos h]

theorem rsi14_defined_of_le {l : List ℚ} (h : 14 ≤ l.length) : rsi14 l ≠ none := by
  unfold rsi14
  rw [if_neg (by omega)]
  simp only [wilderEWM]
  split_ifs <;> simp

theorem rsi14_bounds {l : List ℚ} {r : ℚ} (h : rsi14 l = some r) : 0 ≤ r ∧ r ≤ 100 := by
  unfold rsi14 at h
  by_cases hl : l.length < 14
  · rw [if_pos hl] at h
    exact absurd h (by simp)
  · rw [if_neg hl] at h
    rcases hu : wilderEWM (1 / 14) (0 :: gains (diffs l)) with _ | u
    · rw [hu] at h
      exact absurd h (by simp)
    rcases hd : wilderEWM (1 / 14) (0 :: losses (diffs l)) with _ | d
    · rw [hu, hd] at h
      exact absurd h (by simp)
    rw [hu, hd] at h
    dsimp only at h
    have hu0 : 0 ≤ u := wilderEWM_nonneg hu fun y hy => by
      rcases List.mem_cons.mp hy with hy0 | hy0
      · subst hy0
        norm_num
      · exact gains_nonneg _ y hy0
    have hd0 : 0 ≤ d := wilderEWM_nonneg hd fun y hy => by
      rcases List.mem_cons.mp hy with hy0 | hy0
      · subst hy0
        norm_num
      · exact losses_nonneg _ y hy0
    by_cases hdz : d = 0
    · rw [if_pos hdz] at h
      injection h with h
      subst h
      norm_num
    · rw [if_neg hdz] at h
      injection h with h
      subst h
      have hdpos : 0 < d := lt_of_le_of_ne hd0 (Ne.symm hdz)
      have ht : 0 ≤ u / d := div_nonneg hu0 hdpos.le
      have h1 : (0 : ℚ) < 1 + u / d := by linarith
      have h2 : 100 / (1 + u / d) ≤ 100 := by
        rw [div_le_iff₀ h1]
        nlinarith
      have h3 : 0 < 100 / (1 + u / d) := by positivity
      constructor <;> linarith

theorem get_stock_data_ok (ticker : String) (info : StockInfo) (closes : List ℚ) (yhat : ℚ)
    (h : closes ≠ []) :
    get_stock_data ⟨Except.ok info, Except.ok closes, Except.ok yhat⟩ ticker =
      some (mkSnapshot ticker info closes yhat) := by
  simp [get_stock_data, h]

theorem get_stock_data_eq_some {env : FetchEnv} {t : String} {d : StockData}
    (hd : get_stock_data env t = some d) :
    ∃ info closes yhat, env.infoResult = Except.ok info ∧
      env.historyResult = Except.ok closes ∧ closes ≠ [] ∧
      env.forecastResult = Except.ok yhat ∧ d = mkSnapshot t info closes yhat := by
  obtain ⟨i, h, f⟩ := env
  cases i with
  | error m => simp [get_stock_data] at hd
  | ok info =>
    cases h with
    | error m => simp [get_stock_data] at hd
    | ok closes =>
      by_cases hne : closes.isEmpty
      · simp [get_stock_data, hne] at hd
      · cases f with
        | error m => simp [get_stock_data, hne] at hd
        | ok yhat =>
          simp only [get_stock_data, hne, if_neg, Bool.false_eq_true, not_false_eq_true,
            if_false] at hd
          refine ⟨info, closes, yhat, rfl, rfl, ?_, rfl, ?_⟩
          · intro hc
            rw [hc] at hne
            exact hne rfl
          · exact (Option.some_inj.mp hd).symm

theorem mem_of_lookup_eq_some {α β : Type _} [BEq α] [LawfulBEq α] {c : List (α × β)}
    {t : α} {v : β} (h : c.lookup t = some v) : (t, v) ∈ c := by
  induction c with
  | nil => simp [List.lookup] at h
  | cons p rest ih =>
    obtain ⟨k, w⟩ := p
    rw [List.lookup] at h
    cases hbeq : (t == k) with
    | true =>
      rw [hbeq] at h
      have ht : t = k := eq_of_beq hbeq
      injection h with h
      subst h ht
      exact List.mem_cons_self _ _
    | false =>
      rw [hbeq] at h
      exact List.mem_cons_of_mem _ (ih h)

theorem cachedFetch_lookup_self (world : String → Option StockData) (c : Cache) (t : String) :
    ((cachedFetch world c t).2.1).lookup t = some ((cachedFetch world c t).1) := by
  unfold cachedFetch
  cases h : c.lookup t with
  | some v => simp [h, List.lookup]
  | none =>
    have h128 : (128 : ℕ) = 127 + 1 := rfl
    simp only [h, h128, List.take_succ_cons]
    simp [List.lookup]

theorem round2_int (n : ℤ) : round2 ((n : ℚ)) = (n : ℚ) := by
  unfold round2
  have h : ((n : ℚ)) * 100 = ((n * 100 : ℤ) : ℚ) := by push_cast; ring
  rw [h, round_intCast]
  push_cast
  field_simp

theorem round2_zero : round2 0 = 0 := by
  have := round2_int 0
  simpa using this

theorem round2_100 : round2 100 = 100 := by
  have := round2_int 100
  exact_mod_cast this

/-! ## Concrete inputs used by the witnesses and counterexamples -/

def worldNone : String → Option StockData := fun _ => none

def infoC2 : StockInfo := ⟨some 95, some "Apple Inc.", some 1000⟩

def closesC2 : List ℚ := List.replicate 20 100

def envC2 : FetchEnv := ⟨Except.ok infoC2, Except.ok closesC2, Except.ok 102⟩

def snapC2 : StockData := mkSnapshot "AAPL" infoC2 closesC2 102

def infoC3 : StockInfo := ⟨some 16, some "Tesla Inc.", some 500⟩

def closesC3 : List ℚ := [1, 2, 3, 4, 5, 6, 7, 8, 9, 10, 11, 12, 13, 14, 15, 16]

def envC3 : FetchEnv := ⟨Except.ok infoC3, Except.ok closesC3, Except.ok 17⟩

def snapC3 : StockData := mkSnapshot "TSLA" infoC3 closesC3 17

def closesC3s : List ℚ := [10]

def envC3s : FetchEnv := ⟨Except.ok infoC3, Except.ok closesC3s, Except.ok 11⟩

def snapC3s : StockData := mkSnapshot "TSLA" infoC3 closesC3s 11

def closesC3x : List ℚ := [1, 2, 3, 4, 5, 6, 7, 8, 9, 10, 11, 12, 13, 14]

def envC3x : FetchEnv := ⟨Except.ok infoC3, Except.ok closesC3x, Except.ok 15⟩

def snapC3x : StockData := mkSnapshot "TSLA" infoC3 closesC3x 15

theorem rsi14_closesC3 : rsi14 closesC3 = some 100 := by
  norm_num [rsi14, closesC3, diffs, gains, losses, wilderEWM, wilderStep, List.foldl]

theorem rsi14_closesC3x : rsi14 closesC3x = some 100 := by
  norm_num [rsi14, closesC3x, diffs, gains, losses, wilderEWM, wilderStep, List.foldl]

theorem snapC3_rsi : snapC3.rsi = some 100 := by
  have h : snapC3.rsi = (rsi14 closesC3).map round2 := rfl
  rw [h, rsi14_closesC3]
  simp [round2_100]

theorem snapC3x_rsi : snapC3x.rsi = some 100 := by
  have h : snapC3x.rsi = (rsi14 closesC3x).map round2 := rfl
  rw [h, rsi14_closesC3x]
  simp [round2_100]

/-! ## Claims -/

/-- C1: For every price `p` and defined moving average `m`, the
recommendation computed at `app.py` line 69 (embedded as `decision`) is a
pure function of `(p, m)` whose value is exactly one of Buy/Sell/Hold,
with Buy exactly when `p < m`, Sell exactly when `p > m`, and Hold exactly
when `p = m`. -/
theorem C1_recommendation_trichotomy (p m : ℚ) :
    (decision p (some m) = Rec.buy ↔ p < m) ∧
    (decision p (some m) = Rec.sell ↔ m < p) ∧
    (decision p (some m) = Rec.hold ↔ p = m) := by
  unfold decision
  dsimp only
  rcases lt_trichotomy p m with h | h | h
  · rw [if_pos h]
    refine ⟨⟨fun _ => h, fun _ => rfl⟩, ⟨fun hc => ?_, fun hc => ?_⟩,
      ⟨fun hc => ?_, fun hc => ?_⟩⟩
    · exact Rec.noConfusion hc
    · exact absurd hc (lt_asymm h)
    · exact Rec.noConfusion hc
    · subst hc
      exact absurd h (lt_irrefl p)
  · subst h
    rw [if_neg (lt_irrefl p), if_neg (lt_irrefl p)]
    exact ⟨⟨fun hc => Rec.noConfusion hc, fun hc => absurd hc (lt_irrefl p)⟩,
      ⟨fun hc => Rec.noConfusion hc, fun hc => absurd hc (lt_irrefl p)⟩,
      ⟨fun _ => rfl, fun _ => rfl⟩⟩
  · rw [if_neg (lt_asymm h), if_pos h]
    refine ⟨⟨fun hc => ?_, fun hc => ?_⟩, ⟨fun _ => h, fun _ => rfl⟩,
      ⟨fun hc => ?_, fun hc => ?_⟩⟩
    · exact Rec.noConfusion hc
    · exact absurd hc (lt_asymm h)
    · exact Rec.noConfusion hc
    · subst hc
      exact absurd h (lt_irrefl p)

/-- C2: on a successful pipeline run over a close history of length ≥ 20,
the snapshot's `sma_20` is the arithmetic mean of the last 20 closes
rounded to 2 decimals; over a history of length < 20 it is unavailable
(NaN, embedded as `none`), never a number such as zero. -/
theorem C2_sma20_spec (env : FetchEnv) (t : String) (closes : List ℚ) (d : StockData)
    (hh : env.historyResult = Except.ok closes)
    (hd : get_stock_data env t = some d) :
    (20 ≤ closes.length → d.sma_20 = some (round2 (meanLast20 closes))) ∧
    (closes.length < 20 → d.sma_20 = none) := by
  obtain ⟨info, closes', yhat, hi, hh', hne, hf, rfl⟩ := get_stock_data_eq_some hd
  rw [hh] at hh'
  injection hh' with hh'
  subst hh'
  constructor
  · intro h20
    have hs := smaLast_of_le h20
    simp [mkSnapshot, hs, meanLast20]
  · intro h20
    have hs := smaLast_of_lt h20
    simp [mkSnapshot, hs]

/-- Witness for C2 at a concrete 20-close history (all closes 100, so the
mean of the last 20 closes is 100). -/
theorem C2_sma20_spec_witness :
    (20 ≤ closesC2.length → snapC2.sma_20 = some (round2 (meanLast20 closesC2))) ∧
    (closesC2.length < 20 → snapC2.sma_20 = none) := by
  have hd : get_stock_data envC2 "AAPL" = some snapC2 := by
    unfold envC2 snapC2
    exact get_stock_data_ok _ _ _ _ (by simp [closesC2])
  exact C2_sma20_spec envC2 "AAPL" closesC2 snapC2 rfl hd

/-- C3 counterexample to the claim as stated: a 14-close history (length
< 15) produces a snapshot whose `rsi` is the number 100, not "unavailable".
pandas `where` converts the leading diff-NaN to 0.0, so the
`ewm(min_periods=14)` input holds 14 valid observations already at 14
closes and its last entry is defined; with strictly rising closes the loss
average is 0 and `np.where(emadn == 0, 100, ...)` reports 100.0. -/
theorem C3_counterexample :
    closesC3x.length < 15 ∧
    get_stock_data envC3x "TSLA" = some snapC3x ∧
    snapC3x.rsi = some 100 := by
  refine ⟨by norm_num [closesC3x], ?_, snapC3x_rsi⟩
  unfold envC3x snapC3x
  exact get_stock_data_ok _ _ _ _ (by simp [closesC3x])

/-- C3 (amended): on a successful pipeline run, the snapshot's `rsi` is
unavailable (NaN, embedded as `none`) exactly when the close history is
shorter than 14 observations — not 15: the library turns the leading
diff-NaN into a 0.0 observation, so 14 closes already satisfy
`min_periods=14` and yield a numeric RSI; whenever the snapshot carries an
RSI value, that value lies in [0, 100]. -/
theorem C3_rsi14_amended (env : FetchEnv) (t : String) (closes : List ℚ) (d : StockData)
    (hh : env.historyResult = Except.ok closes)
    (hd : get_stock_data env t = some d) :
    (closes.length < 14 → d.rsi = none) ∧
    (14 ≤ closes.length → d.rsi ≠ none) ∧
    (∀ r, d.rsi = some r → 0 ≤ r ∧ r ≤ 100) := by
  obtain ⟨info, closes', yhat, hi, hh', hne, hf, rfl⟩ := get_stock_data_eq_some hd
  rw [hh] at hh'
  injection hh' with hh'
  subst hh'
  refine ⟨?_, ?_, ?_⟩
  · intro h14
    simp [mkSnapshot, rsi14_of_short h14]
  · intro h14 hcon
    have hcon' : (rsi14 closes).map round2 = none := hcon
    rw [Option.map_eq_none'] at hcon'
    exact rsi14_defined_of_le h14 hcon'
  · intro r hr
    have hr' : (rsi14 closes).map round2 = some r := hr
    rw [Option.map_eq_some'] at hr'
    obtain ⟨r0, hr0, hb⟩ := hr'
    subst hb
    obtain ⟨h0, h1⟩ := rsi14_bounds hr0
    exact ⟨round2_nonneg h0, round2_le_100 h1⟩

/-- Witness for the amended C3: a 1-close history yields an unavailable
RSI, a 16-close strictly increasing history yields a defined RSI, namely
100, which the theorem bounds inside [0, 100]. -/
theorem C3_rsi14_amended_witness :
    snapC3s.rsi = none ∧ snapC3.rsi ≠ none ∧ (0 ≤ (100 : ℚ) ∧ (100 : ℚ) ≤ 100) := by
  have hds : get_stock_data envC3s "TSLA" = some snapC3s := by
    unfold envC3s snapC3s
    exact get_stock_data_ok _ _ _ _ (by simp [closesC3s])
  have hd : get_stock_data envC3 "TSLA" = some snapC3 := by
    unfold envC3 snapC3
    exact get_stock_data_ok _ _ _ _ (by simp [closesC3])
  refine ⟨?_, ?_, ?_⟩
  · exact (C3_rsi14_amended envC3s "TSLA" closesC3s snapC3s rfl hds).1 (by norm_num [closesC3s])
  · exact (C3_rsi14_amended envC3 "TSLA" closesC3 snapC3 rfl hd).2.1 (by norm_num [closesC3])
  · exact (C3_rsi14_amended envC3 "TSLA" closesC3 snapC3 rfl hd).2.2 100 snapC3_rsi

/-- C10: when the close history is shorter than 20 observations, the
20-day rolling mean at the last row is NaN, both comparisons at `app.py`
line 69 are false, and the snapshot's recommendation is Hold. -/
theorem C10_hold_when_sma_unavailable (env : FetchEnv) (t : String) (closes : List ℚ)
    (d : StockData) (hh : env.historyResult = Except.ok closes)
    (hlen : closes.length < 20)
    (hd : get_stock_data env t = some d) :
    d.decision = Rec.hold := by
  obtain ⟨info, closes', yhat, hi, hh', hne, hf, rfl⟩ := get_stock_data_eq_some hd
  rw [hh] at hh'
  injection hh' with hh'
  subst hh'
  have hs := smaLast_of_lt hlen
  simp [mkSnapshot, hs, decision]

/-- Witness for C10 at a concrete 1-close history. -/
theorem C10_hold_when_sma_unavailable_witness : snapC3s.decision = Rec.hold := by
  have hds : get_stock_data envC3s "TSLA" = some snapC3s := by
    unfold envC3s snapC3s
    exact get_stock_data_ok _ _ _ _ (by simp [closesC3s])
  exact C10_hold_when_sma_unavailable envC3s "TSLA" closesC3s snapC3s rfl
    (by norm_num [closesC3s]) hds

/-- Spec §7's failure taxonomy restricted to what the source can signal:
the `stock.info` call raised, the history call raised, the history came
back empty (required data missing), or the Prophet fit raised. -/
def pipelineFailure (env : FetchEnv) : Prop :=
  (∃ m, env.infoResult = Except.error m) ∨
  (∃ m, env.historyResult = Except.error m) ∨
  env.historyResult = Except.ok [] ∨
  (∃ m, env.forecastResult = Except.error m)

/-- C4 (amended): every internal failure — upstream, missing history, or
forecast — is caught by the `try/except` at the orchestrator boundary and
collapsed to the single bare failure value `None`; nothing propagates as an
unhandled fault (the embedded function is total), and callers receive an
explicit success-or-`None` outcome. The failure value carries no symbol,
kind, or message tag. -/
theorem C4_failures_collapse_to_none (env : FetchEnv) (t : String) :
    get_stock_data env t = none ↔ pipelineFailure env := by
  obtain ⟨i, h, f⟩ := env
  unfold get_stock_data pipelineFailure
  cases i with
  | error m => simp
  | ok info =>
    cases h with
    | error m => simp
    | ok closes =>
      cases f with
      | error m =>
        by_cases hne : closes = []
        · subst hne
          simp
        · simp [hne, List.isEmpty_iff]
      | ok yhat =>
        by_cases hne : closes = []
        · subst hne
          simp
        · simp [hne, List.isEmpty_iff]

def envTimeoutC4 : FetchEnv :=
  ⟨Except.error "upstream timeout", Except.ok [100], Except.ok 100⟩

def envNotFoundC4 : FetchEnv :=
  ⟨Except.error "symbol not found", Except.ok [100], Except.ok 100⟩

/-- C4 counterexample to the claim as stated: two failing fetches with
different symbols and different failure kinds/messages return the *same*
bare value `None`. A result equal across different symbols, kinds and
messages cannot be the claimed tagged `Failure(symbol, kind, message)`;
the failure outcome carries no tag at all. -/
theorem C4_counterexample :
    get_stock_data envTimeoutC4 "AAPL" = none ∧
    get_stock_data envNotFoundC4 "ZZZZ" = none ∧
    get_stock_data envTimeoutC4 "AAPL" = get_stock_data envNotFoundC4 "ZZZZ" ∧
    ("AAPL" : String) ≠ "ZZZZ" ∧
    envTimeoutC4.infoResult ≠ envNotFoundC4.infoResult := by
  refine ⟨rfl, rfl, rfl, by decide, ?_⟩
  intro h
  injection h with h
  exact absurd h (by decide)

/-- C5: when the (cached) fetch for the normalized ticker fails, the POST
branch of `home` leaves the whole portfolio map unchanged — in particular
any existing snapshot for that symbol — and only surfaces the
human-readable error message. -/
theorem C5_failed_fetch_preserves_portfolio (fetch : String → Option StockData)
    (portfolio : String → Option StockData) (raw : String)
    (h : fetch (normalizeTicker raw) = none) :
    (homePost fetch portfolio raw).1 = portfolio ∧
    (homePost fetch portfolio raw).2 =
      some ("Invalid ticker: " ++ normalizeTicker raw) := by
  unfold homePost
  dsimp only
  rw [h]
  exact ⟨rfl, rfl⟩

/-- Witness for C5: a fetch that always fails leaves an arbitrary concrete
portfolio untouched. -/
theorem C5_failed_fetch_preserves_portfolio_witness :
    (homePost (fun _ => none) (fun _ => none) "AAPL").1 = (fun _ => none) ∧
    (homePost (fun _ => none) (fun _ => none) "AAPL").2 =
      some ("Invalid ticker: " ++ normalizeTicker "AAPL") :=
  C5_failed_fetch_preserves_portfolio (fun _ => none) (fun _ => none) "AAPL" rfl

/-- C6: calling the `lru_cache`-wrapped `get_stock_data` twice in a row for
the same ticker: the second call is a cache hit — its "wrapped body ran"
flag is `false`, so neither the rate-limit sleep, the yfinance fetch, the
indicators, nor the Prophet fit run again — and it returns a snapshot equal
to the first call's. Hence at most one upstream fetch across both calls. -/
theorem C6_second_call_cache_hit (world : String → Option StockData) (c : Cache) (t : String) :
    (cachedFetch world (cachedFetch world c t).2.1 t).1 = (cachedFetch world c t).1 ∧
    (cachedFetch world (cachedFetch world c t).2.1 t).2.2 = false := by
  have hl := cachedFetch_lookup_self world c t
  set r := cachedFetch world c t with hr
  unfold cachedFetch
  rw [hl]
  exact ⟨rfl, rfl⟩

def infoC7 : StockInfo := ⟨some 100, some "Apple Inc.", some 42⟩

def closesC7 : List ℚ := [100 + 1 / 8]

def envC7 : FetchEnv := ⟨Except.ok infoC7, Except.ok closesC7, Except.ok 101⟩

def snapC7 : StockData := mkSnapshot "AAPL" infoC7 closesC7 101

/-- C7 counterexample: `chart_data` is `history['Close'].tail(30).to_list()`
(`app.py` line 53) — the raw closes, with no rounding. A successful snapshot
whose last close is 100.125 carries 100.125 in `chart_data`, which is not a
value rounded to 2 decimals, so not every numeric field of the snapshot is
rounded at the snapshot boundary. -/
theorem C7_counterexample :
    get_stock_data envC7 "AAPL" = some snapC7 ∧
    snapC7.chart_data = [100 + 1 / 8] ∧
    round2 (100 + 1 / 8) ≠ 100 + 1 / 8 := by
  refine ⟨?_, ?_, ?_⟩
  · unfold envC7 snapC7
    exact get_stock_data_ok _ _ _ _ (by simp [closesC7])
  · simp [snapC7, mkSnapshot, closesC7, lastN]
  · unfold round2
    have h : ((100 : ℚ) + 1 / 8) * 100 + 1 / 2 = ((10013 : ℤ) : ℚ) := by norm_num
    rw [round_eq, h, Int.floor_intCast]
    norm_num

/-- C7 (amended): on every successful snapshot the scalar numeric outputs
`price`, `sma_20`, `rsi`, `change` and `prediction` are rounded to
2 decimals at the snapshot boundary (they are fixed points of `round2`),
but the `chart_data` series is exported raw (see the counterexample). -/
theorem C7_scalar_fields_rounded (env : FetchEnv) (t : String) (d : StockData)
    (hd : get_stock_data env t = some d) :
    round2 d.price = d.price ∧
    d.sma_20.map round2 = d.sma_20 ∧
    d.rsi.map round2 = d.rsi ∧
    round2 d.change = d.change ∧
    round2 d.prediction = d.prediction := by
  obtain ⟨info, closes, yhat, hi, hh, hne, hf, rfl⟩ := get_stock_data_eq_some hd
  simp only [mkSnapshot]
  refine ⟨round2_idem _, ?_, ?_, ?_, round2_idem _⟩
  · cases hs : smaLast closes <;> simp [hs, round2_idem]
  · cases hs : rsi14 closes <;> simp [hs, round2_idem]
  · split_ifs
    · exact round2_idem _
    · exact round2_zero

/-- Witness for the amended C7 at the concrete one-close environment. -/
theorem C7_scalar_fields_rounded_witness :
    round2 snapC7.price = snapC7.price ∧
    snapC7.sma_20.map round2 = snapC7.sma_20 ∧
    snapC7.rsi.map round2 = snapC7.rsi ∧
    round2 snapC7.change = snapC7.change ∧
    round2 snapC7.prediction = snapC7.prediction := by
  have hd : get_stock_data envC7 "AAPL" = some snapC7 := by
    unfold envC7 snapC7
    exact get_stock_data_ok _ _ _ _ (by simp [closesC7])
  exact C7_scalar_fields_rounded envC7 "AAPL" snapC7 hd

/-- C8 (amended): `home` normalizes the raw ticker to uppercase with
surrounding whitespace stripped, but performs no validation before I/O:
every symbol that misses the cache — the empty string included — runs the
wrapped body, i.e. the 1-second rate-limit sleep and the upstream yfinance
call. There is no pre-I/O `InvalidSymbol` rejection anywhere. -/
theorem C8_no_validation_before_fetch (w : String → Option StockData) (c : Cache)
    (raw : String) (h : c.lookup (normalizeTicker raw) = none) :
    (cachedFetch w c (normalizeTicker raw)).2.2 = true := by
  unfold cachedFetch
  rw [h]

/-- C8 counterexample to the claim as stated: the empty symbol survives
normalization as the empty string, is passed to the fetch layer, and on a
cache miss the wrapped body *does* run (flag `true`) — the rate-limit delay
and the Market Data Source call happen — before the failure comes back as a
bare `None`, not as an `InvalidSymbol` rejection before any I/O. -/
theorem C8_counterexample :
    normalizeTicker "" = "" ∧
    (cachedFetch worldNone [] (normalizeTicker "")).2.2 = true ∧
    (cachedFetch worldNone [] (normalizeTicker "")).1 = none :=
  ⟨rfl, rfl, rfl⟩

/-- Witness for the amended C8: a padded lowercase ticker is normalized and
still triggers the upstream fetch on a cache miss. -/
theorem C8_no_validation_before_fetch_witness :
    (cachedFetch worldNone [] (normalizeTicker " aapl ")).2.2 = true :=
  C8_no_validation_before_fetch worldNone [] " aapl " rfl

/-- C9 (amended): the snapshot cache is `lru_cache(maxsize=128)`: it is
bounded to 128 entries with least-recently-used eviction (so it does *not*
grow without bound), while entries never expire by time — a fetched symbol
is present in the cache right after its call. -/
theorem C9_cache_bounded_lru (world : String → Option StockData) (c : Cache) (t : String)
    (h : c.length ≤ 128) :
    ((cachedFetch world c t).2.1).length ≤ 128 ∧
    ((cachedFetch world c t).2.1).lookup t = some ((cachedFetch world c t).1) := by
  refine ⟨?_, cachedFetch_lookup_self world c t⟩
  unfold cachedFetch
  cases hc : c.lookup t with
  | some v =>
    dsimp only
    have hmem : (t, v) ∈ c := mem_of_lookup_eq_some hc
    have hlen := List.length_eraseP_add_one (p := fun p => p.1 == t) hmem (by simp)
    simp only [List.length_cons]
    omega
  | none =>
    dsimp only
    exact List.length_take_le _ _

/-- Witness for the amended C9 at a concrete first fetch. -/
theorem C9_cache_bounded_lru_witness :
    ((cachedFetch worldNone [] "AAPL").2.1).length ≤ 128 ∧
    ((cachedFetch worldNone [] "AAPL").2.1).lookup "AAPL" =
      some ((cachedFetch worldNone [] "AAPL").1) :=
  C9_cache_bounded_lru worldNone [] "AAPL" (by simp)

def distinct129 : List String := (List.range 129).map fun i => Nat.repr i

def runCalls (ts : List String) (c : Cache) : Cache :=
  ts.foldl (fun acc t => (cachedFetch worldNone acc t).2.1) c

set_option maxRecDepth 1000000 in
/-- C9 counterexample to the claim as stated: fetching 129 distinct symbols
"0", "1", …, "128" in order caches "0" after the first call (`some none` is
its cached entry), yet after all 129 calls the entry for "0" has been
evicted and only 128 entries remain — not one per distinct symbol ever
fetched. The cache does not grow without bound and entries are evicted. -/
theorem C9_counterexample :
    (runCalls (distinct129.take 1) []).lookup "0" = some none ∧
    (runCalls distinct129 []).lookup "0" = none ∧
    distinct129.Nodup ∧
    distinct129.length = 129 ∧
    (runCalls distinct129 []).length = 128 := by
  refine ⟨by decide, by decide, by decide, by decide, by decide⟩
